import Mathlib

/-!
Verification development for the greenlight credential / token / mailer
subsystem (`internal/mailer/mailer.go`, packages `mailer` and `data`).
The Go code is shallowly embedded: pure control flow becomes Lean
functions, external effects (SMTP dialing, template rendering, the SQL
backing store, the random source, the bcrypt and sha256 primitives)
become explicit parameters or idealized models, and Go errors become
`Option`/`Except` values.
-/

namespace Greenlight

/-! ## Mailer (`mailer.Mailer.Send`) -/

/-- Outcome of the template-rendering stage of `Send`: the result of
`template.ParseFS` (an error aborts `Send`), and the results of the three
`ExecuteTemplate` calls for the `subject`, `plainBody` and `htmlBody`
fragments. `Except.error` is a non-nil Go error. -/
structure SendEnv where
  parseRes : Except String Unit
  subjectRes : Except String String
  plainBodyRes : Except String String
  htmlBodyRes : Except String String
  /-- Result of `dialer.DialAndSend(msg)` at delivery attempt `i`
  (1-based). `none` is a nil error (success). -/
  dial : Nat → Option String

/-- Observable trace of one `Send` call: the error value `Send` returns
(`none` = nil), how many `DialAndSend` attempts were made, and how many
500 ms `time.Sleep` calls happened. -/
structure SendTrace where
  result : Option String
  attempts : Nat
  sleeps : Nat
  deriving DecidableEq, Repr

/-- The delivery loop of `Send` (`for i := 1; i <= 3; i++`), embedded by
recursion over the list of remaining attempt indices. A successful
attempt returns nil at once with no further sleep; a failed attempt is
followed by a 500 ms sleep and the next iteration; when the loop is
exhausted the function returns nil (`return nil` after the loop). -/
def runDial (dial : Nat → Option String) : List Nat → SendTrace
  | [] => { result := none, attempts := 0, sleeps := 0 }
  | i :: rest =>
    match dial i with
    | none => { result := none, attempts := 1, sleeps := 0 }
    | some _ =>
      let t := runDial dial rest
      { result := t.result, attempts := t.attempts + 1, sleeps := t.sleeps + 1 }

/-- `Mailer.Send`: parse the template resource, render the three
fragments (each failure is returned immediately, before any delivery
attempt), then run the delivery loop for attempts 1, 2, 3. -/
def Send (env : SendEnv) : SendTrace :=
  match env.parseRes with
  | .error e => { result := some e, attempts := 0, sleeps := 0 }
  | .ok _ =>
    match env.subjectRes with
    | .error e => { result := some e, attempts := 0, sleeps := 0 }
    | .ok _ =>
      match env.plainBodyRes with
      | .error e => { result := some e, attempts := 0, sleeps := 0 }
      | .ok _ =>
        match env.htmlBodyRes with
        | .error e => { result := some e, attempts := 0, sleeps := 0 }
        | .ok _ => runDial env.dial [1, 2, 3]

/-- A `SendEnv` whose template stage succeeds entirely. -/
def templatesOk (env : SendEnv) : Prop :=
  env.parseRes = .ok () ∧ (∃ s, env.subjectRes = .ok s) ∧
    (∃ s, env.plainBodyRes = .ok s) ∧ (∃ s, env.htmlBodyRes = .ok s)

/-- Concrete environment in which every delivery attempt fails. -/
def allFailEnv : SendEnv where
  parseRes := .ok ()
  subjectRes := .ok "subject"
  plainBodyRes := .ok "plain"
  htmlBodyRes := .ok "html"
  dial := fun _ => some "dial tcp: i/o timeout"

/-- Environment whose first delivery attempt fails and second succeeds. -/
def secondTryEnv : SendEnv where
  parseRes := .ok ()
  subjectRes := .ok "subject"
  plainBodyRes := .ok "plain"
  htmlBodyRes := .ok "html"
  dial := fun i => if i = 1 then some "dial tcp: connection refused" else none

/-- Environment whose template resource is missing. -/
def missingTemplateEnv : SendEnv where
  parseRes := .error "template: pattern matches no files"
  subjectRes := .ok "subject"
  plainBodyRes := .ok "plain"
  htmlBodyRes := .ok "html"
  dial := fun _ => none

/-! ## PasswordSecret (`data.password`)

The bcrypt primitive lives in the external library
`golang.org/x/crypto/bcrypt`; it is modelled as an ideal salted one-way
primitive following its documented contract: `GenerateFromPassword`
rejects passwords longer than 72 bytes and otherwise produces a digest
determined by the plaintext, the cost (12 in this code) and a fresh
salt; `CompareHashAndPassword` succeeds exactly when the candidate is
the plaintext the digest was generated from, reports
`ErrMismatchedHashAndPassword` otherwise, and reports a structural
error when the stored digest is absent or corrupt. The digest records
the plaintext abstractly; one-wayness is irrelevant to the theorems. -/

/-- Idealized bcrypt digest: cost factor, salt, and the hashed
plaintext (abstract stand-in for the one-way hash output). -/
structure BDigest where
  cost : Nat
  salt : Nat
  key : String
  deriving DecidableEq, Repr

/-- Errors of the idealized bcrypt primitive. `mismatched` is
`bcrypt.ErrMismatchedHashAndPassword`; `invalidHash` stands for the
structural-corruption errors (`ErrHashTooShort` etc.); `tooLong` is
`bcrypt.ErrPasswordTooLong`. -/
inductive BcryptErr
  | mismatched
  | invalidHash
  | tooLong
  deriving DecidableEq, Repr

/-- `bcrypt.GenerateFromPassword(pw, 12)` with an explicit salt drawn
from the primitive's random source. -/
def generateFromPassword (pw : String) (salt : Nat) : Except BcryptErr BDigest :=
  if pw.utf8ByteSize > 72 then .error .tooLong
  else .ok { cost := 12, salt := salt, key := pw }

/-- `bcrypt.CompareHashAndPassword(hash, candidate)`: `none` is a nil
error. A `none` hash models a nil / structurally invalid stored digest. -/
def compareHashAndPassword (hash : Option BDigest) (candidate : String) :
    Option BcryptErr :=
  match hash with
  | none => some .invalidHash
  | some d => if d.key = candidate then none else some .mismatched

/-- The `password` struct: transient plaintext reference and stored
digest. -/
structure Password where
  plaintext : Option String
  hash : Option BDigest
  deriving DecidableEq, Repr

/-- `password.Set`: hash the plaintext with cost 12; on success store
both plaintext and hash; on error leave the struct unchanged and return
the error. -/
def Password.Set (p : Password) (pt : String) (salt : Nat) :
    Password × Option BcryptErr :=
  match generateFromPassword pt salt with
  | .error e => (p, some e)
  | .ok h => ({ plaintext := some pt, hash := some h }, none)

/-- `password.Matches`: compare the candidate against the stored hash;
a mismatch yields `(false, nil)`, any other bcrypt error is returned,
and a nil comparison error yields `(true, nil)`. -/
def Password.Matches (p : Password) (candidate : String) :
    Bool × Option BcryptErr :=
  match compareHashAndPassword p.hash candidate with
  | some .mismatched => (false, none)
  | some e => (false, some e)
  | none => (true, none)

/-! ## UserStore (`data.User`, `data.ValidateUser`, `data.UserModel`) -/

/-- Modelled from the spec: the repository's `internal/validator`
package is not under `src/`; per the spec, a `ValidationError` carries
field→message pairs, collected rather than fail-fast. `errors` models
the validator's key→message map as an association list. -/
structure Validator where
  errors : List (String × String)
  deriving DecidableEq, Repr

/-- Modelled from the spec: `Validator.AddError` records a message for
a field key unless one is already present (map semantics). -/
def addError (v : Validator) (key msg : String) : Validator :=
  if v.errors.any (fun p => p.1 == key) then v
  else { errors := v.errors ++ [(key, msg)] }

/-- Modelled from the spec: `Validator.Check` adds the error exactly
when the condition is false (problems are collected, not fail-fast). -/
def check (v : Validator) (cond : Bool) (key msg : String) : Validator :=
  if cond then v else addError v key msg

/-- The `data.User` struct (password material held in `Password`). -/
structure GoUser where
  id : Int
  createdAt : Int
  name : String
  email : String
  password : Password
  activated : Bool
  version : Int
  deriving DecidableEq, Repr

/-- `data.ValidateEmail`: email non-empty and matching `EmailRX`. The
regex itself lives in the absent `internal/validator` package, so the
match is abstracted as the predicate `emailRX`. -/
def validateEmail (emailRX : String → Bool) (v : Validator) (email : String) :
    Validator :=
  check (check v (email != "") "email" "must be provided")
    (emailRX email) "email" "must be a valid email address"

/-- `data.ValidatePasswordPlainText`: non-empty and 8–72 bytes. -/
def validatePasswordPlainText (v : Validator) (pw : String) : Validator :=
  check (check (check v (pw != "") "password" "must be provided")
      (decide (8 ≤ pw.utf8ByteSize)) "password" "must be at least 8 bytes long")
    (decide (pw.utf8ByteSize ≤ 72)) "password" "must not be more than 72 bytes long"

/-- The two name checks of `ValidateUser`, grouped: name non-empty and
at most 500 bytes. -/
def nameChecks (v : Validator) (u : GoUser) : Validator :=
  check (check v (u.name != "") "name" "must be provided")
    (decide (u.name.utf8ByteSize ≤ 500)) "name" "must not be more than 500 bytes long"

/-- The ordinary `Check`-based part of `data.ValidateUser`: name
non-empty and ≤ 500 bytes, email valid, and — only when the transient
plaintext is present — the plaintext length rules. -/
def validateUserChecks (emailRX : String → Bool) (v : Validator) (u : GoUser) :
    Validator :=
  let v3 := validateEmail emailRX (nameChecks v u) u.email
  match u.password.plaintext with
  | none => v3
  | some pt => validatePasswordPlainText v3 pt

/-- Result of Go code that may `panic` instead of returning. -/
inductive Outcome (α : Type)
  | panicked (msg : String)
  | ok (a : α)
  deriving DecidableEq, Repr

/-- `data.ValidateUser`: run the ordinary checks, then panic with
`"missing password hash for user"` when the stored digest is absent —
an invariant violation, not a validation entry. -/
def validateUser (emailRX : String → Bool) (v : Validator) (u : GoUser) :
    Outcome Validator :=
  match u.password.hash with
  | none => .panicked "missing password hash for user"
  | some _ => .ok (validateUserChecks emailRX v u)

/-- A driver-level error as surfaced by the `pq` driver: the rendered
message text (`err.Error()`) together with the structured constraint
identifier the driver also carries (`pq.Error.Constraint`). -/
structure DriverError where
  message : String
  constraintName : Option String
  deriving DecidableEq, Repr

/-- An error returned by `QueryRowContext(...).Scan`: either
`sql.ErrNoRows` or a driver error. -/
inductive ScanError
  | noRows
  | driver (e : DriverError)
  deriving DecidableEq, Repr

/-- `err.Error()` for a scan error (`sql.ErrNoRows.Error()` is
`"sql: no rows in result set"`). -/
def errorText : ScanError → String
  | .noRows => "sql: no rows in result set"
  | .driver d => d.message

/-- The exact message literal `UserModel.Insert`/`Update` compare
against. -/
def pqDuplicateEmailMsg : String :=
  "pq: duplicate key value violates unique constraint \"users_email_key\""

/-- Errors exposed by the store layer. `raw e` is the untranslated
driver/scan error returned by the `default` switch case. -/
inductive StoreError
  | duplicateEmail
  | editConflict
  | recordNotFound
  | raw (e : ScanError)
  deriving DecidableEq, Repr

/-- The error-translation switch in `UserModel.Insert`: a scan error
whose message text equals the `pq` duplicate-key literal becomes
`ErrDuplicateEmail`; anything else is returned as-is. -/
def mapInsertScanError (e : ScanError) : StoreError :=
  if errorText e = pqDuplicateEmailMsg then .duplicateEmail else .raw e

/-- The error-translation switch in `UserModel.Update`: the duplicate
message literal becomes `ErrDuplicateEmail`, `sql.ErrNoRows` becomes
`ErrEditConflict`, anything else is returned as-is. -/
def mapUpdateScanError (e : ScanError) : StoreError :=
  if errorText e = pqDuplicateEmailMsg then .duplicateEmail
  else
    match e with
    | .noRows => .editConflict
    | .driver d => .raw (.driver d)

/-- One row of the `users` table. -/
structure Row where
  id : Int
  createdAt : Int
  name : String
  email : String
  passwordHash : Option BDigest
  activated : Bool
  version : Int
  deriving DecidableEq, Repr

/-- The `users` table with its id sequence and clock, under the unique
constraint `users_email_key` on `email`. -/
structure UsersTable where
  rows : List Row
  nextId : Int
  now : Int
  deriving DecidableEq, Repr

/-- The driver error `pq` raises on a `users_email_key` violation: the
exact message text plus the structured constraint field. -/
def pqDuplicateEmailErr : DriverError :=
  { message := pqDuplicateEmailMsg, constraintName := some "users_email_key" }

/-- `UserModel.Insert`: `INSERT INTO users ... RETURNING id,
created_at, version`. A violation of the unique email constraint makes
`Scan` fail with the `pq` duplicate-key error, which the switch then
translates; otherwise the new row is stored with version 1 and the
store-assigned fields are scanned back into the user. -/
def insertUser (t : UsersTable) (u : GoUser) : UsersTable × GoUser × Option StoreError :=
  if t.rows.any (fun r => r.email == u.email) then
    (t, u, some (mapInsertScanError (.driver pqDuplicateEmailErr)))
  else
    let row : Row :=
      { id := t.nextId, createdAt := t.now, name := u.name, email := u.email,
        passwordHash := u.password.hash, activated := u.activated, version := 1 }
    ({ t with rows := t.rows ++ [row], nextId := t.nextId + 1 },
     { u with id := t.nextId, createdAt := t.now, version := 1 }, none)

/-- `UserModel.Update`: `UPDATE users SET ..., version = version + 1
WHERE id = $5 AND version = $6 RETURNING version`. No matching row
makes `Scan` fail with `sql.ErrNoRows`; an email collision with a
different row raises the `pq` duplicate-key error; otherwise the row is
rewritten with version incremented by exactly 1 and the new version is
scanned back into the user. -/
def updateUser (t : UsersTable) (u : GoUser) : UsersTable × GoUser × Option StoreError :=
  match t.rows.find? (fun r => r.id == u.id && r.version == u.version) with
  | none => (t, u, some (mapUpdateScanError .noRows))
  | some r =>
    if t.rows.any (fun r2 => r2.email == u.email && r2.id != u.id) then
      (t, u, some (mapUpdateScanError (.driver pqDuplicateEmailErr)))
    else
      let newRow : Row :=
        { r with name := u.name, email := u.email,
                 passwordHash := u.password.hash, activated := u.activated,
                 version := r.version + 1 }
      ({ t with rows := t.rows.map (fun r2 => if r2.id == u.id then newRow else r2) },
       { u with version := r.version + 1 }, none)

/-- Result of the registration-time insert flow. -/
inductive InsertOutcome
  | validationFailed (errs : List (String × String))
  | stored (t : UsersTable) (u : GoUser)
  | storeFailed (e : StoreError)
  deriving DecidableEq, Repr

/-- Modelled from the spec: the caller that performs "inserting a user"
(the registration handler, not under `src/`) runs `ValidateUser` with a
fresh validator and, per the spec, reports the collected field errors
as a `ValidationError` when any check failed, calling
`UserModel.Insert` only on a clean validator. -/
def insertUserFlow (emailRX : String → Bool) (t : UsersTable) (u : GoUser) :
    Outcome InsertOutcome :=
  match validateUser emailRX { errors := [] } u with
  | .panicked m => .panicked m
  | .ok v =>
    if v.errors.isEmpty then
      match insertUser t u with
      | (t2, u2, none) => .ok (.stored t2 u2)
      | (_, _, some e) => .ok (.storeFailed e)
    else .ok (.validationFailed v.errors)

/-- A user with name, email and plaintext set but no stored digest. -/
def noHashUser : GoUser where
  id := 0
  createdAt := 0
  name := "Alice"
  email := "alice@example.com"
  password := { plaintext := some "pa55word", hash := none }
  activated := false
  version := 0

/-- An empty `users` table. -/
def emptyTable : UsersTable where
  rows := []
  nextId := 1
  now := 0

/-- The stored row for the C7 witness: id 1, version 2. -/
def aliceRow : Row where
  id := 1
  createdAt := 0
  name := "Alice"
  email := "alice@example.com"
  passwordHash := some { cost := 12, salt := 7, key := "pa55word" }
  activated := false
  version := 2

/-- A one-row `users` table. -/
def oneUserTable : UsersTable where
  rows := [aliceRow]
  nextId := 2
  now := 0

/-- A caller-side user whose observed version (1) is stale: another
writer already advanced the stored version to 2. -/
def staleAlice : GoUser where
  id := 1
  createdAt := 0
  name := "Alice B"
  email := "alice@example.com"
  password := { plaintext := none, hash := some { cost := 12, salt := 7, key := "pa55word" } }
  activated := false
  version := 1

/-- A duplicate-key failure on `users_email_key` as another driver or
driver version could render it: the structured constraint field still
identifies `users_email_key`, but the message text differs from the
exact `pq` literal the code compares against. -/
def altDuplicateErr : DriverError where
  message := "ERROR: duplicate key value violates unique constraint \"users_email_key\" (SQLSTATE 23505)"
  constraintName := some "users_email_key"

/-! ## TokenIssuer (`data.generateToken`, `data.TokenModel.New`)

`crypto/rand`, `encoding/base32` and `crypto/sha256` are external
libraries. The random source is a parameter (its outcome is the
`Except` the code matches on); sha256 is an abstract digest-function
parameter; the base-32 encoder is embedded bit-for-bit: Go's
`base32.StdEncoding.WithPadding(base32.NoPadding)` emits the MSB-first
bit stream of the input bytes in 5-bit groups (the final group
zero-padded on the right), each indexing the standard alphabet. -/

/-- The RFC 4648 standard base-32 alphabet used by
`base32.StdEncoding`. -/
def stdB32Alphabet : List Char := "ABCDEFGHIJKLMNOPQRSTUVWXYZ234567".toList

/-- The 8 bits of a byte, most significant first. -/
def byteToBits (b : Nat) : List Bool :=
  [b.testBit 7, b.testBit 6, b.testBit 5, b.testBit 4,
   b.testBit 3, b.testBit 2, b.testBit 1, b.testBit 0]

/-- The MSB-first bit stream of a byte string. -/
def bytesToBits (bs : List Nat) : List Bool := (bs.map byteToBits).flatten

/-- Split a bit stream into consecutive groups of 5 (the final group
may be shorter). -/
def chunk5 : List Bool → List (List Bool)
  | [] => []
  | [a] => [[a]]
  | [a, b] => [[a, b]]
  | [a, b, c] => [[a, b, c]]
  | [a, b, c, d] => [[a, b, c, d]]
  | a :: b :: c :: d :: e :: rest => [a, b, c, d, e] :: chunk5 rest

/-- Big-endian value of a bit list. -/
def bitsVal : List Bool → Nat
  | [] => 0
  | b :: rest => (if b then 1 else 0) * 2 ^ rest.length + bitsVal rest

/-- Value of a 5-bit group, with a short final group zero-padded on
the right as Go's encoder does. -/
def chunkVal (c : List Bool) : Nat := bitsVal c * 2 ^ (5 - c.length)

/-- `base32.StdEncoding.WithPadding(base32.NoPadding).EncodeToString`. -/
def base32NoPad (bs : List Nat) : String :=
  String.mk ((chunk5 (bytesToBits bs)).map (fun c => stdB32Alphabet.getD (chunkVal c) 'A'))

/-- The `data.Token` struct. Time instants are modelled as `Int`. -/
structure Token where
  plainText : String
  hash : List Nat
  userID : Int
  expiry : Int
  scope : String
  deriving DecidableEq, Repr

def ScopeActivation : String := "activation"

def ScopeAuthentication : String := "authentication"

/-- `data.generateToken`: on a random-source failure return the error;
otherwise encode the random bytes as the unpadded base-32 plaintext,
store `sha256(plaintext)` as the hash, and set
`expiry = now + ttl`. `sha256` is the abstract 256-bit digest
function; `randRead` is the outcome of `rand.Read` on the 16-byte
buffer. -/
def generateToken (sha256 : String → List Nat) (now userID ttl : Int)
    (scope : String) (randRead : Except String (List Nat)) :
    Except String Token :=
  match randRead with
  | .error e => .error e
  | .ok randomBytes =>
    let pt := base32NoPad randomBytes
    .ok { plainText := pt, hash := sha256 pt, userID := userID,
          expiry := now + ttl, scope := scope }

/-- Error channel of `TokenModel.New`: a generation failure or the
error returned by `TokenModel.Insert`. -/
inductive TokenNewErr
  | genErr (m : String)
  | insErr (m : String)
  deriving DecidableEq, Repr

/-- `TokenModel.New`: generate, then persist via `Insert`; on a
generation failure return `(nil, err)`, otherwise return the generated
token together with whatever `Insert` returned — the token pointer is
non-nil even when `Insert` failed. -/
def tokenNew (sha256 : String → List Nat) (now userID ttl : Int)
    (scope : String) (randRead : Except String (List Nat))
    (insertErr : Option String) : Option Token × Option TokenNewErr :=
  match generateToken sha256 now userID ttl scope randRead with
  | .error e => (none, some (.genErr e))
  | .ok token => (some token, insertErr.map .insErr)

/-! ## Theorems -/

theorem send_templatesOk_runDial (env : SendEnv) (h : templatesOk env) :
    Send env = runDial env.dial [1, 2, 3] := by
  obtain ⟨hp, ⟨s1, h1⟩, ⟨s2, h2⟩, ⟨s3, h3⟩⟩ := h
  simp [Send, hp, h1, h2, h3]

theorem runDial_fail1 (dial : Nat → Option String) (e : String)
    (h1 : dial 1 = some e) (h2 : ∃ f, dial 2 = some f) (h3 : ∃ g, dial 3 = some g) :
    runDial dial [1, 2, 3] = ⟨none, 3, 3⟩ := by
  obtain ⟨f, h2⟩ := h2; obtain ⟨g, h3⟩ := h3
  simp [runDial, h1, h2, h3]

theorem runDial_firstSuccess (dial : Nat → Option String) (k : Nat)
    (hk1 : 1 ≤ k) (hk3 : k ≤ 3) (hsucc : dial k = none)
    (hbefore : ∀ j, 1 ≤ j → j < k → dial j ≠ none) :
    runDial dial [1, 2, 3] = ⟨none, k, k - 1⟩ := by
  interval_cases k
  · simp [runDial, hsucc]
  · obtain ⟨e, h1⟩ := Option.ne_none_iff_exists'.mp (hbefore 1 (by omega) (by omega))
    simp [runDial, h1, hsucc]
  · obtain ⟨e1, h1⟩ := Option.ne_none_iff_exists'.mp (hbefore 1 (by omega) (by omega))
    obtain ⟨e2, h2⟩ := Option.ne_none_iff_exists'.mp (hbefore 2 (by omega) (by omega))
    simp [runDial, h1, h2, hsucc]

/-- **C1.** Whenever the template stage succeeds and all 3 network
delivery attempts fail, `Send` returns a nil error (success) instead of
surfacing the final delivery error — the loop falls through to
`return nil`. Exactly 3 attempts are made. -/
theorem Send_allAttemptsFail_returnsNil (env : SendEnv) (ht : templatesOk env)
    (hf : ∀ i, 1 ≤ i → i ≤ 3 → env.dial i ≠ none) :
    (Send env).result = none ∧ (Send env).attempts = 3 := by
  rw [send_templatesOk_runDial env ht]
  obtain ⟨e1, h1⟩ := Option.ne_none_iff_exists'.mp (hf 1 (by omega) (by omega))
  rw [runDial_fail1 env.dial e1 h1
    (Option.ne_none_iff_exists'.mp (hf 2 (by omega) (by omega)))
    (Option.ne_none_iff_exists'.mp (hf 3 (by omega) (by omega)))]
  exact ⟨rfl, rfl⟩

/-- Witness for C1: against an unreachable transport every attempt
fails, yet `Send` reports success after 3 attempts. -/
theorem Send_allAttemptsFail_returnsNil_witness :
    (Send allFailEnv).result = none ∧ (Send allFailEnv).attempts = 3 :=
  Send_allAttemptsFail_returnsNil allFailEnv
    ⟨rfl, ⟨"subject", rfl⟩, ⟨"plain", rfl⟩, ⟨"html", rfl⟩⟩
    (fun i _ _ => by simp [allFailEnv])

/-- **C2 counterexample.** The claim states that when every attempt
fails, only 2 × 500 ms of backoff elapses (sleeps only *between*
consecutive attempts). In fact the loop body sleeps after every failed
attempt, including the third and last, so 3 sleeps (1.5 s) occur. -/
theorem Send_allFail_three_sleeps_cex :
    (Send allFailEnv).sleeps = 3 ∧ (Send allFailEnv).sleeps ≠ 2 :=
  ⟨rfl, by decide⟩

/-- **C2 (amended).** For every `Send` whose template stage succeeds:
at most 3 delivery attempts are made; a first success on attempt `k`
yields a nil result with exactly `k` attempts and `k - 1` sleeps; and
when every attempt fails, exactly 3 attempts are made and 3 sleeps
(3 × 500 ms, i.e. 1.5 s of cumulative backoff) elapse, one after each
failed attempt including the last. -/
theorem Send_retry_schedule (env : SendEnv) (ht : templatesOk env) :
    (Send env).attempts ≤ 3 ∧
    (∀ k, 1 ≤ k → k ≤ 3 → env.dial k = none →
      (∀ j, 1 ≤ j → j < k → env.dial j ≠ none) →
      Send env = ⟨none, k, k - 1⟩) ∧
    ((∀ i, 1 ≤ i → i ≤ 3 → env.dial i ≠ none) →
      Send env = ⟨none, 3, 3⟩) := by
  rw [send_templatesOk_runDial env ht]
  refine ⟨?_, ?_, ?_⟩
  · cases h1 : env.dial 1 <;> cases h2 : env.dial 2 <;> cases h3 : env.dial 3 <;>
      simp [runDial, h1, h2, h3]
  · exact fun k hk1 hk3 hsucc hbefore =>
      runDial_firstSuccess env.dial k hk1 hk3 hsucc hbefore
  · intro hf
    obtain ⟨e1, h1⟩ := Option.ne_none_iff_exists'.mp (hf 1 (by omega) (by omega))
    exact runDial_fail1 env.dial e1 h1
      (Option.ne_none_iff_exists'.mp (hf 2 (by omega) (by omega)))
      (Option.ne_none_iff_exists'.mp (hf 3 (by omega) (by omega)))

/-- Witness for the amended C2: a success on attempt 2 performs exactly
2 attempts with a single 500 ms sleep. -/
theorem Send_retry_schedule_witness : Send secondTryEnv = ⟨none, 2, 1⟩ :=
  (Send_retry_schedule secondTryEnv
    ⟨rfl, ⟨"subject", rfl⟩, ⟨"plain", rfl⟩, ⟨"html", rfl⟩⟩).2.1
    2 (by omega) (by omega) (by simp [secondTryEnv])
    (fun j hj1 hj2 => by interval_cases j; simp [secondTryEnv])

/-- **C3.** If parsing the named template resource fails, or rendering
any of the three fragments (`subject`, `plainBody`, `htmlBody`) fails,
`Send` returns that error and performs zero delivery attempts (and no
sleeps): template failures are not retried. -/
theorem Send_templateFailure_noAttempts (env : SendEnv) :
    (∀ e, env.parseRes = .error e → Send env = ⟨some e, 0, 0⟩) ∧
    (∀ e, env.parseRes = .ok () → env.subjectRes = .error e →
      Send env = ⟨some e, 0, 0⟩) ∧
    (∀ e s₁, env.parseRes = .ok () → env.subjectRes = .ok s₁ →
      env.plainBodyRes = .error e → Send env = ⟨some e, 0, 0⟩) ∧
    (∀ e s₁ s₂, env.parseRes = .ok () → env.subjectRes = .ok s₁ →
      env.plainBodyRes = .ok s₂ → env.htmlBodyRes = .error e →
      Send env = ⟨some e, 0, 0⟩) := by
  refine ⟨?_, ?_, ?_, ?_⟩ <;> intros <;> simp [Send, *]

/-- Witness for C3: a parse failure is returned as-is with zero
delivery attempts. -/
theorem Send_templateFailure_noAttempts_witness :
    Send missingTemplateEnv = ⟨some "template: pattern matches no files", 0, 0⟩ :=
  (Send_templateFailure_noAttempts missingTemplateEnv).1
    "template: pattern matches no files" rfl

/-- **C4.** For every plaintext of length 8–72 bytes: `Set` succeeds,
`Matches` with the same plaintext then yields `(true, nil)`, and
`Matches` with any different candidate yields `(false, nil)`. -/
theorem password_set_matches_roundtrip (p : Password) (pt : String) (salt : Nat)
    (hlo : 8 ≤ pt.utf8ByteSize) (hhi : pt.utf8ByteSize ≤ 72) :
    (p.Set pt salt).2 = none ∧
    ((p.Set pt salt).1.Matches pt = (true, none)) ∧
    (∀ c, c ≠ pt → (p.Set pt salt).1.Matches c = (false, none)) := by
  have hgen : generateFromPassword pt salt = .ok ⟨12, salt, pt⟩ := by
    simp [generateFromPassword]; omega
  refine ⟨?_, ?_, ?_⟩
  · simp [Password.Set, hgen]
  · simp [Password.Set, hgen, Password.Matches, compareHashAndPassword]
  · intro c hc
    have hne : pt ≠ c := fun h => hc h.symm
    simp [Password.Set, hgen, Password.Matches, compareHashAndPassword, hne]

/-- Witness for C4 at the concrete plaintext `"pa55word"` (8 bytes). -/
theorem password_set_matches_roundtrip_witness :
    ((Password.Set ⟨none, none⟩ "pa55word" 7).1.Matches "pa55word" = (true, none)) ∧
    ((Password.Set ⟨none, none⟩ "pa55word" 7).1.Matches "hunter22" = (false, none)) :=
  ⟨(password_set_matches_roundtrip ⟨none, none⟩ "pa55word" 7
      (by decide) (by decide)).2.1,
   (password_set_matches_roundtrip ⟨none, none⟩ "pa55word" 7
      (by decide) (by decide)).2.2 "hunter22" (by decide)⟩

/-- **C5.** `Matches` never signals a wrong password through its error
value: against a structurally valid stored digest a mismatching
candidate yields exactly `(false, nil)`, and `Matches` returns a
non-nil error only when the stored digest is structurally invalid
(absent/corrupt). -/
theorem password_matches_error_discipline (p : Password) (c : String) :
    ((p.Matches c).2 ≠ none → p.hash = none) ∧
    (∀ d, p.hash = some d → d.key ≠ c → p.Matches c = (false, none)) := by
  constructor
  · intro herr
    cases hh : p.hash with
    | none => rfl
    | some d =>
      exfalso
      apply herr
      by_cases hk : d.key = c <;>
        simp [Password.Matches, compareHashAndPassword, hh, hk]
  · intro d hd hk
    simp [Password.Matches, compareHashAndPassword, hd, hk]

/-- Witness for C5: a wrong candidate against a valid digest yields
`(false, nil)`. -/
theorem password_matches_error_discipline_witness :
    Password.Matches ⟨none, some ⟨12, 7, "pa55word"⟩⟩ "wrong-pass" = (false, none) :=
  (password_matches_error_discipline ⟨none, some ⟨12, 7, "pa55word"⟩⟩
    "wrong-pass").2 ⟨12, 7, "pa55word"⟩ rfl (by decide)

theorem check_false_errors_ne_nil (v : Validator) (k m : String) :
    (check v false k m).errors ≠ [] := by
  show (addError v k m).errors ≠ []
  unfold addError
  by_cases hc : v.errors.any (fun p => p.1 == k) = true
  · rw [if_pos hc]
    intro hnil
    rw [hnil] at hc
    simp at hc
  · rw [if_neg hc]
    simp

theorem check_errors_ne_nil (v : Validator) (b : Bool) (k m : String)
    (h : v.errors ≠ []) : (check v b k m).errors ≠ [] := by
  cases b
  · exact check_false_errors_ne_nil v k m
  · simpa [check] using h

theorem validateEmail_errors_ne_nil (emailRX : String → Bool) (v : Validator)
    (email : String) (h : v.errors ≠ []) :
    (validateEmail emailRX v email).errors ≠ [] :=
  check_errors_ne_nil _ _ _ _ (check_errors_ne_nil _ _ _ _ h)

theorem validatePasswordPlainText_errors_ne_nil (v : Validator) (pw : String)
    (h : v.errors ≠ []) : (validatePasswordPlainText v pw).errors ≠ [] :=
  check_errors_ne_nil _ _ _ _ (check_errors_ne_nil _ _ _ _ (check_errors_ne_nil _ _ _ _ h))

theorem validateUserChecks_errors_ne_nil (emailRX : String → Bool) (v : Validator)
    (u : GoUser)
    (h : u.name = "" ∨ 500 < u.name.utf8ByteSize ∨ u.email = "" ∨
      emailRX u.email = false) :
    (validateUserChecks emailRX v u).errors ≠ [] := by
  have hmain : (validateEmail emailRX (nameChecks v u) u.email).errors ≠ [] := by
    rcases h with hn | hn | hn | hn
    · apply validateEmail_errors_ne_nil
      unfold nameChecks
      apply check_errors_ne_nil
      rw [hn, show (("" : String) != "") = false from by decide]
      exact check_false_errors_ne_nil v "name" "must be provided"
    · apply validateEmail_errors_ne_nil
      unfold nameChecks
      rw [show (decide (u.name.utf8ByteSize ≤ 500)) = false from by
        simp; omega]
      exact check_false_errors_ne_nil _ "name" "must not be more than 500 bytes long"
    · unfold validateEmail
      apply check_errors_ne_nil
      rw [hn, show (("" : String) != "") = false from by decide]
      exact check_false_errors_ne_nil _ "email" "must be provided"
    · unfold validateEmail
      rw [hn]
      exact check_false_errors_ne_nil _ "email" "must be a valid email address"
  unfold validateUserChecks
  cases hp : u.password.plaintext with
  | none => simpa using hmain
  | some pt => simpa using validatePasswordPlainText_errors_ne_nil _ pt hmain

/-- **C6.** Inserting a user enforces name non-empty / ≤ 500 bytes and
a syntactically valid email as ordinary validation failures (a
`ValidationError` with collected field errors), while a user whose
password digest is absent makes the flow panic with
`"missing password hash for user"` rather than return a normal error:
with the digest present the flow can never panic. -/
theorem insertUser_invariant_vs_validation (emailRX : String → Bool)
    (t : UsersTable) (u : GoUser) :
    (u.password.hash = none →
      insertUserFlow emailRX t u = .panicked "missing password hash for user") ∧
    (u.password.hash ≠ none →
      (∀ m, insertUserFlow emailRX t u ≠ .panicked m) ∧
      ((u.name = "" ∨ 500 < u.name.utf8ByteSize ∨ u.email = "" ∨
          emailRX u.email = false) →
        ∃ errs, errs ≠ [] ∧
          insertUserFlow emailRX t u = .ok (.validationFailed errs))) := by
  constructor
  · intro hnone
    simp [insertUserFlow, validateUser, hnone]
  · intro hsome
    obtain ⟨d, hd⟩ := Option.ne_none_iff_exists'.mp hsome
    constructor
    · intro m
      rcases hi : insertUser t u with ⟨t2, u2, e⟩
      cases e <;> simp [insertUserFlow, validateUser, hd, hi] <;> split <;> simp
    · intro hbad
      have hne := validateUserChecks_errors_ne_nil emailRX { errors := [] } u hbad
      refine ⟨(validateUserChecks emailRX { errors := [] } u).errors, hne, ?_⟩
      have hE : (validateUserChecks emailRX { errors := [] } u).errors.isEmpty = false := by
        cases hE2 : (validateUserChecks emailRX { errors := [] } u).errors.isEmpty
        · rfl
        · exact absurd (List.isEmpty_iff.mp hE2) hne
      simp [insertUserFlow, validateUser, hd, hE]

/-- Witness for C6: inserting a user whose password digest is absent
panics. -/
theorem insertUser_invariant_vs_validation_witness :
    insertUserFlow (fun _ => true) emptyTable noHashUser =
      .panicked "missing password hash for user" :=
  (insertUser_invariant_vs_validation (fun _ => true) emptyTable noHashUser).1 rfl

theorem find?_eq_some_of_unique {α : Type} (p : α → Bool) (r : α) :
    ∀ l : List α, r ∈ l → p r = true → (∀ x ∈ l, p x = true → x = r) →
      l.find? p = some r := by
  intro l
  induction l with
  | nil => intro h _ _; simp at h
  | cons a tl ih =>
    intro hmem hp hall
    cases hpa : p a
    · have hr : r ∈ tl := by
        rcases List.mem_cons.mp hmem with h | h
        · exact absurd (h ▸ hp) (by simp [hpa])
        · exact h
      rw [List.find?_cons_of_neg _ (by simp [hpa])]
      exact ih hr hp (fun x hx hpx => hall x (List.mem_cons_of_mem a hx) hpx)
    · rw [List.find?_cons_of_pos _ hpa, hall a (List.mem_cons_self a tl) hpa]

/-- **C7.** `Update` conditioned on the caller's last-observed version:
when the stored version for the user's id differs from `u.version`, the
conditional `UPDATE` matches no row, `Scan` sees `sql.ErrNoRows`, and
`Update` fails with `ErrEditConflict`, leaving the table (hence the
stored version) unchanged. When the versions match (and the new email
collides with no other row), `Update` succeeds, the version scanned
back is exactly `u.version + 1`, every stored row with that id now has
version `u.version + 1`, and no other row was touched. `huniq` is the
primary-key invariant of the `users` table. -/
theorem updateUser_version_semantics (t : UsersTable) (u : GoUser) (r : Row)
    (huniq : ∀ r1 ∈ t.rows, ∀ r2 ∈ t.rows, r1.id = r2.id → r1 = r2)
    (hmem : r ∈ t.rows) (hid : r.id = u.id) :
    (u.version ≠ r.version → updateUser t u = (t, u, some .editConflict)) ∧
    (u.version = r.version →
      (∀ r2 ∈ t.rows, r2.email = u.email → r2.id = u.id) →
      (updateUser t u).2.2 = none ∧
      (updateUser t u).2.1.version = u.version + 1 ∧
      (∀ r2 ∈ (updateUser t u).1.rows, r2.id = u.id → r2.version = u.version + 1) ∧
      (∀ r2 ∈ (updateUser t u).1.rows, r2.id ≠ u.id → r2 ∈ t.rows)) := by
  constructor
  · intro hver
    have hfind : t.rows.find? (fun r2 => r2.id == u.id && r2.version == u.version) = none := by
      rw [List.find?_eq_none]
      intro x hx hpx
      rw [Bool.and_eq_true, beq_iff_eq, beq_iff_eq] at hpx
      have hxr : x = r := huniq x hx r hmem (by rw [hpx.1]; exact hid.symm)
      exact hver (by rw [← hpx.2, hxr])
    have hmap : mapUpdateScanError .noRows = .editConflict := by decide
    simp [updateUser, hfind, hmap]
  · intro hver hemail
    have hfind : t.rows.find? (fun r2 => r2.id == u.id && r2.version == u.version)
        = some r := by
      apply find?_eq_some_of_unique _ r t.rows hmem
      · rw [Bool.and_eq_true, beq_iff_eq, beq_iff_eq]
        exact ⟨hid, hver.symm⟩
      · intro x hx hpx
        rw [Bool.and_eq_true, beq_iff_eq, beq_iff_eq] at hpx
        exact huniq x hx r hmem (by rw [hpx.1]; exact hid.symm)
    have hany : t.rows.any (fun r2 => r2.email == u.email && r2.id != u.id) = false := by
      rw [List.any_eq_false]
      intro x hx hpx
      rw [Bool.and_eq_true, beq_iff_eq, bne_iff_ne] at hpx
      exact hpx.2 (hemail x hx hpx.1)
    have hupd : updateUser t u =
        ({ t with rows := t.rows.map (fun r2 => if r2.id == u.id then
            ({ r with name := u.name, email := u.email,
                      passwordHash := u.password.hash, activated := u.activated,
                      version := r.version + 1 } : Row) else r2) },
         { u with version := r.version + 1 }, none) := by
      simp [updateUser, hfind, hany]
    rw [hupd]
    refine ⟨rfl, by simp [hver], ?_, ?_⟩
    · intro r2 h2 _
      obtain ⟨r3, hr3mem, hr3eq⟩ := List.mem_map.mp h2
      by_cases hc : (r3.id == u.id) = true
      · rw [if_pos hc] at hr3eq
        rw [← hr3eq]
        simp [hver]
      · rw [if_neg hc] at hr3eq
        exfalso
        apply hc
        rw [beq_iff_eq, hr3eq]
        rename_i hid2
        exact hid2
    · intro r2 h2 hid2
      obtain ⟨r3, hr3mem, hr3eq⟩ := List.mem_map.mp h2
      by_cases hc : (r3.id == u.id) = true
      · rw [if_pos hc] at hr3eq
        exact absurd (by rw [← hr3eq]; exact hid) hid2
      · rw [if_neg hc] at hr3eq
        rw [← hr3eq]
        exact hr3mem

/-- Witness for C7: an update with a stale version fails with
`ErrEditConflict` and leaves the table unchanged. -/
theorem updateUser_version_semantics_witness :
    updateUser oneUserTable staleAlice = (oneUserTable, staleAlice, some .editConflict) :=
  (updateUser_version_semantics oneUserTable staleAlice aliceRow
    (by intro r1 h1 r2 h2 _
        simp [oneUserTable] at h1 h2
        rw [h1, h2])
    (by simp [oneUserTable]) rfl).1 (by decide)

/-- **C8 counterexample.** Duplicate-key detection does not use the
structured constraint identifier: a driver error whose structured
constraint field is `users_email_key` but whose message text differs
from the hard-coded literal is not translated to `ErrDuplicateEmail` —
both `Insert` and `Update` return it raw, so the driver's error text
leaks past the store boundary. -/
theorem duplicate_detection_ignores_constraint_cex :
    altDuplicateErr.constraintName = some "users_email_key" ∧
    mapInsertScanError (.driver altDuplicateErr) = .raw (.driver altDuplicateErr) ∧
    mapInsertScanError (.driver altDuplicateErr) ≠ .duplicateEmail ∧
    mapUpdateScanError (.driver altDuplicateErr) = .raw (.driver altDuplicateErr) := by
  refine ⟨rfl, ?_, ?_, ?_⟩ <;> decide

/-- **C8 (amended).** Duplicate-key detection in `UserModel.Insert` and
`UserModel.Update` compares the driver error's rendered message text
(`err.Error()`) against the exact `pq` literal for
`users_email_key` — string matching, not the structured constraint
identifier — and every scan error whose text differs (other than
`sql.ErrNoRows` in `Update`) is returned raw past the store boundary. -/
theorem duplicate_detection_by_message_text (e : ScanError) :
    (mapInsertScanError e = .duplicateEmail ↔ errorText e = pqDuplicateEmailMsg) ∧
    (errorText e ≠ pqDuplicateEmailMsg → mapInsertScanError e = .raw e) ∧
    (mapUpdateScanError e = .duplicateEmail ↔ errorText e = pqDuplicateEmailMsg) ∧
    (∀ d, e = .driver d → errorText e ≠ pqDuplicateEmailMsg →
      mapUpdateScanError e = .raw (.driver d)) := by
  by_cases h : errorText e = pqDuplicateEmailMsg
  · refine ⟨?_, ?_, ?_, ?_⟩ <;> simp [mapInsertScanError, mapUpdateScanError, h]
  · cases e with
    | noRows =>
      refine ⟨?_, ?_, ?_, ?_⟩
      · simp [mapInsertScanError, h]
      · intro _; simp [mapInsertScanError, h]
      · simp [mapUpdateScanError, h]
      · intro d hd; cases hd
    | driver d =>
      refine ⟨?_, ?_, ?_, ?_⟩
      · simp [mapInsertScanError, h]
      · intro _; simp [mapInsertScanError, h]
      · simp [mapUpdateScanError, h]
      · intro d2 hd _
        cases hd
        simp [mapUpdateScanError, h]

/-- Witness for the amended C8: `sql.ErrNoRows` in `Insert` is not the
duplicate literal, so it is passed through raw. -/
theorem duplicate_detection_by_message_text_witness :
    mapInsertScanError .noRows = .raw .noRows :=
  (duplicate_detection_by_message_text .noRows).2.1 (by decide)

theorem bytesToBits_length (bs : List Nat) : (bytesToBits bs).length = 8 * bs.length := by
  induction bs with
  | nil => simp [bytesToBits]
  | cons b tl ih =>
    simp only [bytesToBits, List.map_cons, List.flatten_cons, List.length_append] at ih ⊢
    rw [ih]
    simp [byteToBits]
    ring

theorem chunk5_length : ∀ (n : Nat) (bits : List Bool), bits.length ≤ n →
    (chunk5 bits).length = (bits.length + 4) / 5 := by
  intro n
  induction n with
  | zero =>
    intro bits hlen
    rw [List.length_eq_zero.mp (Nat.le_zero.mp hlen)]
    rfl
  | succ n ih =>
    intro bits hlen
    rcases bits with _ | ⟨a, _ | ⟨b, _ | ⟨c, _ | ⟨d, _ | ⟨e, rest⟩⟩⟩⟩⟩
    · simp [chunk5]
    · simp [chunk5]
    · simp [chunk5]
    · simp [chunk5]
    · simp [chunk5]
    · have hr : rest.length ≤ n := by
        simp only [List.length_cons] at hlen
        omega
      simp only [chunk5, List.length_cons, ih rest hr]
      omega

theorem chunk5_mem_length_le : ∀ (n : Nat) (bits : List Bool), bits.length ≤ n →
    ∀ c ∈ chunk5 bits, c.length ≤ 5 := by
  intro n
  induction n with
  | zero =>
    intro bits hlen c hc
    rw [List.length_eq_zero.mp (Nat.le_zero.mp hlen)] at hc
    simp [chunk5] at hc
  | succ n ih =>
    intro bits hlen c hc
    rcases bits with _ | ⟨a, _ | ⟨b, _ | ⟨c2, _ | ⟨d, _ | ⟨e, rest⟩⟩⟩⟩⟩ <;>
      simp only [chunk5] at hc
    · simp at hc
    · simp at hc; rw [hc]; simp
    · simp at hc; rw [hc]; simp
    · simp at hc; rw [hc]; simp
    · simp at hc; rw [hc]; simp
    · rcases List.mem_cons.mp hc with h | h
      · rw [h]; simp
      · have hr : rest.length ≤ n := by
          simp only [List.length_cons] at hlen
          omega
        exact ih rest hr c h

theorem bitsVal_lt (l : List Bool) : bitsVal l < 2 ^ l.length := by
  induction l with
  | nil => simp [bitsVal]
  | cons b rest ih =>
    have h2 : (2 : ℕ) ^ (rest.length + 1) = 2 * 2 ^ rest.length := by ring
    cases b <;> simp [bitsVal, List.length_cons, h2] <;> omega

theorem chunkVal_lt (c : List Bool) (h : c.length ≤ 5) : chunkVal c < 32 := by
  have h1 := bitsVal_lt c
  have h2 : (2 : ℕ) ^ c.length * 2 ^ (5 - c.length) = 32 := by
    rw [← pow_add]
    have h5 : c.length + (5 - c.length) = 5 := by omega
    rw [h5]
    norm_num
  have h3 := Nat.mul_lt_mul_of_pos_right h1
    (pow_pos (by norm_num : (0 : ℕ) < 2) (5 - c.length))
  calc chunkVal c = bitsVal c * 2 ^ (5 - c.length) := rfl
    _ < 2 ^ c.length * 2 ^ (5 - c.length) := h3
    _ = 32 := h2

theorem getD_mem {α : Type} (l : List α) (i : Nat) (d : α) (h : i < l.length) :
    l.getD i d ∈ l := by
  induction l generalizing i with
  | nil => simp at h
  | cons a tl ih =>
    cases i with
    | zero => simp [List.getD]
    | succ n =>
      rw [List.getD_cons_succ]
      exact List.mem_cons_of_mem a (ih n (by simpa using h))

theorem base32NoPad_props (bs : List Nat) (h16 : bs.length = 16) :
    (base32NoPad bs).length = 26 ∧ ∀ c ∈ (base32NoPad bs).toList, c ∈ stdB32Alphabet := by
  have hbits : (bytesToBits bs).length = 128 := by rw [bytesToBits_length, h16]
  constructor
  · show ((chunk5 (bytesToBits bs)).map
      (fun c => stdB32Alphabet.getD (chunkVal c) 'A')).length = 26
    rw [List.length_map, chunk5_length (bytesToBits bs).length (bytesToBits bs) le_rfl,
      hbits]
  · intro c hc
    have hc2 : c ∈ (chunk5 (bytesToBits bs)).map
        (fun ch => stdB32Alphabet.getD (chunkVal ch) 'A') := hc
    obtain ⟨ch, hch, hceq⟩ := List.mem_map.mp hc2
    rw [← hceq]
    apply getD_mem
    have hle := chunk5_mem_length_le (bytesToBits bs).length (bytesToBits bs) le_rfl ch hch
    have h32 : stdB32Alphabet.length = 32 := rfl
    rw [h32]
    exact chunkVal_lt ch hle

/-- Shared helper: everything `generateToken` guarantees when the
random source yields 16 bytes. -/
theorem generateToken_props (sha256 : String → List Nat) (now userID ttl : Int)
    (scope : String) (bytes : List Nat) (h16 : bytes.length = 16) :
    ∃ tok, generateToken sha256 now userID ttl scope (.ok bytes) = .ok tok ∧
      tok.plainText = base32NoPad bytes ∧
      tok.plainText.length = 26 ∧
      (∀ c ∈ tok.plainText.toList, c ∈ stdB32Alphabet) ∧
      tok.hash = sha256 tok.plainText ∧
      tok.expiry = now + ttl ∧ tok.userID = userID ∧ tok.scope = scope := by
  obtain ⟨hlen, halpha⟩ := base32NoPad_props bytes h16
  exact ⟨_, rfl, rfl, hlen, halpha, rfl, rfl, rfl, rfl⟩

/-- **C9.** For every token issued by `TokenModel.New` under a
non-failing random source delivering the 16-byte buffer: the plaintext
is the unpadded base-32 encoding of those bytes — exactly 26 characters
from the standard base-32 alphabet — the stored hash equals the 256-bit
digest of that plaintext, the expiry equals issuance time plus ttl, and
the owner and scope are as requested; `New` then hands exactly this
token to `Insert`. -/
theorem tokenNew_issuance_spec (sha256 : String → List Nat) (now userID ttl : Int)
    (scope : String) (bytes : List Nat) (insertErr : Option String)
    (h16 : bytes.length = 16) :
    ∃ tok, tokenNew sha256 now userID ttl scope (.ok bytes) insertErr
        = (some tok, insertErr.map .insErr) ∧
      tok.plainText.length = 26 ∧
      (∀ c ∈ tok.plainText.toList, c ∈ stdB32Alphabet) ∧
      tok.hash = sha256 tok.plainText ∧
      tok.expiry = now + ttl ∧ tok.userID = userID ∧ tok.scope = scope := by
  obtain ⟨tok, hgen, _, hlen, halpha, hhash, hexp, huid, hscope⟩ :=
    generateToken_props sha256 now userID ttl scope bytes h16
  refine ⟨tok, ?_, hlen, halpha, hhash, hexp, huid, hscope⟩
  simp [tokenNew, hgen]

/-- Witness for C9 at the all-zero random bytes (plaintext
`"AAAAAAAAAAAAAAAAAAAAAAAAAA"`) with a 24 h ttl and nil insert error. -/
theorem tokenNew_issuance_spec_witness :
    ∃ tok, tokenNew (fun _ => [0]) 0 1 86400 ScopeActivation
        (.ok (List.replicate 16 0)) none = (some tok, Option.map .insErr none) ∧
      tok.plainText.length = 26 ∧
      (∀ c ∈ tok.plainText.toList, c ∈ stdB32Alphabet) ∧
      tok.hash = (fun _ => [0]) tok.plainText ∧
      tok.expiry = 0 + 86400 ∧ tok.userID = 1 ∧ tok.scope = ScopeActivation :=
  tokenNew_issuance_spec (fun _ => [0]) 0 1 86400 ScopeActivation
    (List.replicate 16 0) none (by decide)

/-- **C10.** When generation succeeds but `TokenModel.Insert` fails,
`TokenModel.New` returns the generated token (non-nil, with its 26-char
plaintext and its hash populated) *alongside* the non-nil error, rather
than a nil token: a caller checking only the token pointer would accept
a token that was never persisted. -/
theorem tokenNew_insertFailure_returnsToken (sha256 : String → List Nat)
    (now userID ttl : Int) (scope : String) (bytes : List Nat) (e : String)
    (h16 : bytes.length = 16) :
    ∃ tok, tokenNew sha256 now userID ttl scope (.ok bytes) (some e)
        = (some tok, some (.insErr e)) ∧
      tok.plainText.length = 26 ∧ tok.plainText ≠ "" ∧
      tok.hash = sha256 tok.plainText := by
  obtain ⟨tok, hgen, _, hlen, _, hhash, _, _, _⟩ :=
    generateToken_props sha256 now userID ttl scope bytes h16
  refine ⟨tok, ?_, hlen, ?_, hhash⟩
  · simp [tokenNew, hgen]
  · intro hempty
    rw [hempty] at hlen
    simp at hlen

/-- Witness for C10: with a failing insert, `New` still returns the
generated (never-persisted) token next to the error. -/
theorem tokenNew_insertFailure_returnsToken_witness :
    ∃ tok, tokenNew (fun _ => [0]) 0 1 86400 ScopeActivation
        (.ok (List.replicate 16 0)) (some "pq: connection refused")
        = (some tok, some (.insErr "pq: connection refused")) ∧
      tok.plainText.length = 26 ∧ tok.plainText ≠ "" ∧
      tok.hash = (fun _ => [0]) tok.plainText :=
  tokenNew_insertFailure_returnsToken (fun _ => [0]) 0 1 86400 ScopeActivation
    (List.replicate 16 0) "pq: connection refused" (by decide)

end Greenlight
